import Mathlib

/-!
Verification of the dnscodec package (DNS response validation, result-code
interpretation, CNAME-chain answer extraction, typed record projections,
and query padding arithmetic).

Domain names are modelled at the byte level, as the Go code compares and
folds individual bytes of the textual name.  Fallible Go functions that
return `(value, error)` are modelled with `Except`; functions returning
only an error are modelled with `Option`.
-/

/-- A domain name in textual presentation form, as a list of bytes. -/
abbrev DnsName := List Nat

/-- Folds one byte to lowercase when it lies in the ASCII range `A`..`Z`
(65..90); every other byte is left unchanged.  This is the per-byte step of
both `responseEqualASCIIName` and the lowercasing in `dns.CanonicalName`. -/
def lowerASCII (b : Nat) : Nat :=
  if 65 ≤ b ∧ b ≤ 90 then b + 32 else b

/-- Embeds `responseEqualASCIIName` from response.go: false when the byte
lengths differ, otherwise a byte-by-byte comparison folding ASCII uppercase
to lowercase on each side. -/
def responseEqualASCIIName (x y : DnsName) : Bool :=
  if x.length ≠ y.length then false
  else (List.zip x y).all fun p => lowerASCII p.1 == lowerASCII p.2

/-- Number of backslash bytes (92) at the head of a byte list.  Used to
model the escape check of `dns.IsFqdn`. -/
def leadingBackslashes : List Nat → Nat
  | 92 :: rest => leadingBackslashes rest + 1
  | _ => 0

/-- Models `dns.IsFqdn` from the miekg/dns library: the name ends with a
dot (46) that is not escaped, i.e. preceded by an even number of
backslashes. -/
def isFqdn (s : DnsName) : Bool :=
  match s.reverse with
  | 46 :: rest => leadingBackslashes rest % 2 == 0
  | _ => false

/-- Models `dns.Fqdn` from the miekg/dns library: append a trailing dot
unless the name is already fully qualified. -/
def fqdn (s : DnsName) : DnsName :=
  if isFqdn s then s else s ++ [46]

/-- Embeds `responseCanonicalName` from response.go, which calls
`dns.CanonicalName`: lowercase the name (modelled for ASCII bytes) and make
it fully qualified. -/
def responseCanonicalName (s : DnsName) : DnsName :=
  fqdn (s.map lowerASCII)

/-- The byte list of a Lean string literal; a convenience for writing
concrete domain names in examples. -/
def strBytes (s : String) : DnsName :=
  s.data.map Char.toNat

/-- The error values of response.go (ErrInvalidQuery, ErrInvalidResponse,
ErrNoName, ErrServerMisbehaving, ErrServerTemporarilyMisbehaving,
ErrNoData, ErrCannotUnmarshalMessage). -/
inductive DnsError where
  | invalidQuery
  | invalidResponse
  | noName
  | serverMisbehaving
  | serverTemporarilyMisbehaving
  | noData
  | cannotUnmarshalMessage
deriving DecidableEq, Repr

/-- A DNS question: name, type and class (dns.Question). -/
structure DnsQuestion where
  name : DnsName
  qtype : Nat
  qclass : Nat
deriving DecidableEq, Repr

/-- The payload of a resource record.  The Go code distinguishes records by
their dynamic type (`*dns.A`, `*dns.AAAA`, `*dns.CNAME`); every other
record type is untyped here.  The textual form of an address (the result of
`net.IP.String()`) is carried as an opaque string, since address formatting
belongs to the external net library. -/
inductive RData where
  | a (text : String)
  | aaaa (text : String)
  | cname (target : DnsName)
  | other
deriving DecidableEq, Repr

/-- A resource record: the header fields (name, type, class) of
`dns.RR_Header` plus the type-tagged payload. -/
structure RR where
  name : DnsName
  rrtype : Nat
  rrClass : Nat
  rdata : RData
deriving DecidableEq, Repr

/-- The fields of `dns.Msg` that response.go reads: ID, header flags,
result code, question list and answer section. -/
structure DnsMsg where
  id : Nat
  response : Bool
  authoritative : Bool
  recursionAvailable : Bool
  rcode : Nat
  question : List DnsQuestion
  answer : List RR
deriving DecidableEq, Repr

/-- dns.RcodeSuccess -/
def rcodeSuccess : Nat := 0
/-- dns.RcodeServerFailure (SERVFAIL) -/
def rcodeServerFailure : Nat := 2
/-- dns.RcodeNameError (NXDOMAIN) -/
def rcodeNameError : Nat := 3

/-- Embeds `ValidateResponseForQuery` from response.go: the sequential
structural checks of a response against its query, returning the single
question of the query on success. -/
def ValidateResponseForQuery (query resp : DnsMsg) : Except DnsError DnsQuestion :=
  if resp.response = false then .error .invalidResponse
  else if resp.id ≠ query.id then .error .invalidResponse
  else if query.question.length ≠ 1 then .error .invalidQuery
  else if resp.question.length ≠ 1 then .error .invalidResponse
  else
    match resp.question.head?, query.question.head? with
    | some resp0, some query0 =>
      if responseEqualASCIIName resp0.name query0.name = false then .error .invalidResponse
      else if resp0.qclass ≠ query0.qclass then .error .invalidResponse
      else if resp0.qtype ≠ query0.qtype then .error .invalidResponse
      else .ok query0
    | _, _ => .error .invalidResponse

/-- Embeds `ResponseErrorFromRCODE` from response.go: maps the result code
of a response (plus the lame-referral signals) to an error, or none on
success. -/
def ResponseErrorFromRCODE (resp : DnsMsg) : Option DnsError :=
  if resp.rcode = rcodeNameError then some .noName
  else if resp.rcode = rcodeSuccess ∧ resp.authoritative = false ∧
      resp.recursionAvailable = false ∧ resp.answer.length = 0 then some .noData
  else if resp.rcode ≠ rcodeSuccess then
    if resp.rcode = rcodeServerFailure then some .serverTemporarilyMisbehaving
    else some .serverMisbehaving
  else none

/-- One step of the CNAME chain walk in `ResponseExtractValidAnswers`: the
accumulator carries the valid-name list and the current chain tip.  A
canonical-name record whose header name equals the tip case-insensitively
and whose class equals the question class advances the tip to its
canonicalized target and records that target. -/
def responseChainStep (qclass : Nat) (acc : List DnsName × DnsName) (rr : RR) :
    List DnsName × DnsName :=
  match rr.rdata with
  | .cname target =>
    if responseEqualASCIIName acc.2 rr.name ∧ rr.rrClass = qclass then
      (acc.1 ++ [responseCanonicalName target], responseCanonicalName target)
    else acc
  | _ => acc

/-- Phase 1 of `ResponseExtractValidAnswers`: the valid-name list built by
walking the answer section.  The list starts with the canonicalized query
name; the chain tip starts with the query name exactly as written
(`currentName := q0.Name` in the Go code). -/
def responseValidNames (q0 : DnsQuestion) (answers : List RR) : List DnsName :=
  (answers.foldl (responseChainStep q0.qclass)
    ([responseCanonicalName q0.name], q0.name)).1

/-- The body of the filtering loop (phase 2) of
`ResponseExtractValidAnswers`: skip a record whose canonicalized name is
not among the valid names, skip a record whose class differs from the
question class, and otherwise append it to the result. -/
def responseKeepStep (validNames : List DnsName) (qclass : Nat)
    (acc : List RR) (rr : RR) : List RR :=
  if (validNames.contains (responseCanonicalName rr.name)) = false then acc
  else if qclass ≠ rr.rrClass then acc
  else acc ++ [rr]

/-- Embeds `ResponseExtractValidAnswers` from response.go: build the valid
CNAME chain, keep every answer whose canonicalized name is in the chain and
whose class matches, and fail with noData when nothing is kept. -/
def ResponseExtractValidAnswers (q0 : DnsQuestion) (resp : DnsMsg) :
    Except DnsError (List RR) :=
  let validNames := responseValidNames q0 resp.answer
  let valid := resp.answer.foldl (responseKeepStep validNames q0.qclass) []
  if valid.length < 1 then .error .noData else .ok valid

/-- The `Response` struct of response.go: the query, the response message
and the valid records extracted for the query. -/
structure Response where
  query : DnsMsg
  response : DnsMsg
  validRRs : List RR
deriving DecidableEq, Repr

/-- Embeds `ParseResponse` from response.go: structural validation, then
result-code interpretation, then answer extraction, in strict sequence,
propagating the first error. -/
def ParseResponse (query resp : DnsMsg) : Except DnsError Response :=
  match ValidateResponseForQuery query resp with
  | .error e => .error e
  | .ok q0 =>
    match ResponseErrorFromRCODE resp with
    | some e => .error e
    | none =>
      match ResponseExtractValidAnswers q0 resp with
      | .error e => .error e
      | .ok rrs => .ok { query := query, response := resp, validRRs := rrs }

/-- The body of the loop of `Response.RecordsA`: append the textual
address when the record payload is an address-v4, skip it otherwise. -/
def recordsAStep (acc : List String) (rr : RR) : List String :=
  match rr.rdata with
  | .a text => acc ++ [text]
  | _ => acc

/-- Embeds `Response.RecordsA` from response.go: the textual addresses of
the address-v4 records among the valid records, in order, or noData when
there is none. -/
def Response.RecordsA (r : Response) : Except DnsError (List String) :=
  let out := r.validRRs.foldl recordsAStep []
  if out.length < 1 then .error .noData else .ok out

/-- The body of the loop of `Response.RecordsAAAA`: append the textual
address when the record payload is an address-v6, skip it otherwise. -/
def recordsAAAAStep (acc : List String) (rr : RR) : List String :=
  match rr.rdata with
  | .aaaa text => acc ++ [text]
  | _ => acc

/-- Embeds `Response.RecordsAAAA` from response.go: the textual addresses
of the address-v6 records among the valid records, in order, or noData when
there is none. -/
def Response.RecordsAAAA (r : Response) : Except DnsError (List String) :=
  let out := r.validRRs.foldl recordsAAAAStep []
  if out.length < 1 then .error .noData else .ok out

/-- Embeds `Response.RecordFirstCNAME` from response.go: the target of the
first canonical-name record among the valid records, or noData. -/
def Response.RecordFirstCNAME (r : Response) : Except DnsError DnsName :=
  match r.validRRs.find? (fun rr => match rr.rdata with | .cname _ => true | _ => false) with
  | some rr =>
    match rr.rdata with
    | .cname target => .ok target
    | _ => .error .noData
  | none => .error .noData

/-- The body of the scan of `Response.RecordsCNAME`: append the target
when the record payload is a canonical name, skip it otherwise. -/
def recordsCNAMEStep (acc : List DnsName) (rr : RR) : List DnsName :=
  match rr.rdata with
  | .cname target => acc ++ [target]
  | _ => acc

/-- Modelled from the spec: `Response.RecordsCNAME` does not appear in the
provided source files (only its test, TestResponseRecordsCNAME, does).
Per spec section 4.6 it scans the valid-record list once, preserving order,
collects every canonical-name target, and fails with noData if the
projection is empty.  The scan is written in the same accumulator style as
`Response.RecordsA`. -/
def Response.RecordsCNAME (r : Response) : Except DnsError (List DnsName) :=
  let out := r.validRRs.foldl recordsCNAMEStep []
  if out.length < 1 then .error .noData else .ok out

/-- Embeds the padding arithmetic of `Query.NewMsg` (RFC 8467 block-length
padding): Go computes `(128 - uint16(msg.Len()+4)) % 128` in uint16
arithmetic, so the subtraction wraps modulo 2^16.  `msgLen` is the encoded
length of the message before the padding option is appended. -/
def queryPaddingRemainder (msgLen : Nat) : Nat :=
  ((65536 + 128 - (msgLen + 4) % 65536) % 65536) % 128

/-- The payload of the padding option appended by `Query.NewMsg`:
`make([]byte, remainder)`, i.e. exactly `remainder` zero bytes. -/
def queryPaddingOption (msgLen : Nat) : List Nat :=
  List.replicate (queryPaddingRemainder msgLen) 0

/-- The encoded length of the padded message: the unpadded length plus the
4 octets of the padding option header plus the padding payload (the code
inflates the length by the option size of 4 octets, per its comment and
RFC 8467 section 4.1). -/
def queryPaddedLen (msgLen : Nat) : Nat :=
  msgLen + 4 + queryPaddingRemainder msgLen

/-- The CNAME chain described by spec section 4.5, as a direct recursion
over the answer section with the current chain tip as an explicit
parameter: each canonical-name record whose header name equals the tip
case-insensitively and whose class equals the question class contributes
its canonicalized target and advances the tip to it; every other record is
skipped (a record that does not match the current tip never extends the
chain). -/
def chainNamesSpec (qclass : Nat) : DnsName → List RR → List DnsName
  | _, [] => []
  | tip, rr :: rest =>
    match rr.rdata with
    | .cname target =>
      if responseEqualASCIIName tip rr.name ∧ rr.rrClass = qclass then
        responseCanonicalName target ::
          chainNamesSpec qclass (responseCanonicalName target) rest
      else chainNamesSpec qclass tip rest
    | _ => chainNamesSpec qclass tip rest

/-- The structural validation of spec section 4.3, written from the words
of the spec: the response flag, the ID, the single question on each side,
and the question fields, checked in that order with the first failure
winning; on success the question is the one taken from the query. -/
def validateSpec (query resp : DnsMsg) : Except DnsError DnsQuestion :=
  if resp.response = false then .error .invalidResponse
  else if resp.id ≠ query.id then .error .invalidResponse
  else
    match query.question, resp.question with
    | [query0], [resp0] =>
      if responseEqualASCIIName resp0.name query0.name = false ∨
          resp0.qclass ≠ query0.qclass ∨ resp0.qtype ≠ query0.qtype then
        .error .invalidResponse
      else .ok query0
    | [_], _ => .error .invalidResponse
    | _, _ => .error .invalidQuery

/-- Every canonical-name target among a list of records, in order. -/
def cnameTargets : List RR → List DnsName
  | [] => []
  | rr :: rest =>
    match rr.rdata with
    | .cname target => target :: cnameTargets rest
    | _ => cnameTargets rest

/-- The textual addresses of the address-v4 records of a list, in order. -/
def aTexts : List RR → List String
  | [] => []
  | rr :: rest =>
    match rr.rdata with
    | .a text => text :: aTexts rest
    | _ => aTexts rest

/-- The textual addresses of the address-v6 records of a list, in order. -/
def aaaaTexts : List RR → List String
  | [] => []
  | rr :: rest =>
    match rr.rdata with
    | .aaaa text => text :: aaaaTexts rest
    | _ => aaaaTexts rest

/-- Whether a record is an address-v4 record (its payload has the dynamic
type that `Response.RecordsA` projects). -/
def rrIsA (rr : RR) : Bool :=
  match rr.rdata with
  | .a _ => true
  | _ => false

/-- Whether a record is an address-v6 record (its payload has the dynamic
type that `Response.RecordsAAAA` projects). -/
def rrIsAAAA (rr : RR) : Bool :=
  match rr.rdata with
  | .aaaa _ => true
  | _ => false

/-- The filtering predicate of phase 2 of `ResponseExtractValidAnswers`: a
record is kept when its canonicalized header name is among the valid names
and its class equals the question class. -/
def responseKept (validNames : List DnsName) (qclass : Nat) (rr : RR) : Bool :=
  validNames.contains (responseCanonicalName rr.name) && (qclass == rr.rrClass)

/-- The first component of the chain-walk fold, characterized by the spec
recursion: starting from any accumulated list and tip, the fold appends
exactly the chain described by `chainNamesSpec` from that tip. -/
theorem foldl_chainStep_fst (qc : Nat) (l : List RR) :
    ∀ (acc : List DnsName) (tip : DnsName),
    (l.foldl (responseChainStep qc) (acc, tip)).1 = acc ++ chainNamesSpec qc tip l := by
  induction l with
  | nil =>
    intro acc tip
    simp [chainNamesSpec]
  | cons rr rest ih =>
    intro acc tip
    simp only [List.foldl_cons]
    cases hr : rr.rdata with
    | cname target =>
      by_cases hc : responseEqualASCIIName tip rr.name ∧ rr.rrClass = qc
      · simp [responseChainStep, chainNamesSpec, hr, hc, ih]
      · simp [responseChainStep, chainNamesSpec, hr, hc, ih]
    | a text => simp [responseChainStep, chainNamesSpec, hr, ih]
    | aaaa text => simp [responseChainStep, chainNamesSpec, hr, ih]
    | other => simp [responseChainStep, chainNamesSpec, hr, ih]

/-- C1 counterexample: for the question name `x` (bytes [120], not fully
qualified) with class 1, and an answer holding one CNAME record named `x.`
(bytes [120, 46]) of class 1 with target `y.` (bytes [121, 46]), the
valid-name list the code builds differs from the chain described by the
claim, whose tip starts at the canonicalized query name: the code compares
the record name against the raw query name `x`, the lengths differ, and
the chain is never advanced. -/
theorem c1_chainStart_counterexample :
    (responseValidNames ⟨[120], 1, 1⟩ [⟨[120, 46], 5, 1, .cname [121, 46]⟩] ==
      responseCanonicalName [120] ::
        chainNamesSpec 1 (responseCanonicalName [120])
          [⟨[120, 46], 5, 1, .cname [121, 46]⟩]) = false := by
  decide

/-- C1 (amended): during answer extraction the valid-name list starts with
the canonicalized query name, while the chain tip starts at the query name
exactly as asked (not canonicalized); the chain is then advanced only by
canonical-name records, taken in answer-section order, whose header name
equals the current tip case-insensitively and whose class equals the
question class; each followed record appends its canonicalized target to
the valid names and makes it the new tip, and a record that does not match
the current tip never extends the chain. -/
theorem c1_chainStart_amended (q0 : DnsQuestion) (resp : DnsMsg) :
    responseValidNames q0 resp.answer =
      responseCanonicalName q0.name :: chainNamesSpec q0.qclass q0.name resp.answer := by
  unfold responseValidNames
  rw [foldl_chainStep_fst]
  simp

/-- One step of the filtering loop either appends the record (when
`responseKept` holds) or leaves the accumulator unchanged. -/
theorem keepStep_eq (names : List DnsName) (qc : Nat) (acc : List RR) (rr : RR) :
    responseKeepStep names qc acc rr =
      if responseKept names qc rr = true then acc ++ [rr] else acc := by
  unfold responseKeepStep responseKept
  by_cases h1 : responseCanonicalName rr.name ∈ names
  · by_cases h2 : qc = rr.rrClass
    · simp [h1, h2]
    · simp [h1, h2]
  · simp [h1]

/-- The filtering loop of phase 2 of `ResponseExtractValidAnswers` equals
a filter by `responseKept`. -/
theorem foldl_keepStep_eq_filter (names : List DnsName) (qc : Nat) (l : List RR) :
    ∀ acc : List RR,
    l.foldl (responseKeepStep names qc) acc = acc ++ l.filter (responseKept names qc) := by
  induction l with
  | nil => intro acc; simp
  | cons rr rest ih =>
    intro acc
    rw [List.foldl_cons, keepStep_eq, List.filter_cons]
    by_cases hk : responseKept names qc rr = true
    · simp [hk, ih]
    · simp [hk, ih]

/-- `ResponseExtractValidAnswers` in terms of a filter over the answer
section: keep exactly the records whose canonicalized name is among the
valid names and whose class equals the question class, and fail with
noData exactly when nothing is kept. -/
theorem extract_eq_filter (q0 : DnsQuestion) (resp : DnsMsg) :
    ResponseExtractValidAnswers q0 resp =
      (if resp.answer.filter (responseKept (responseValidNames q0 resp.answer) q0.qclass) = []
        then .error .noData
        else .ok (resp.answer.filter (responseKept (responseValidNames q0 resp.answer) q0.qclass))) := by
  unfold ResponseExtractValidAnswers
  simp only [foldl_keepStep_eq_filter, List.nil_append]
  cases h : resp.answer.filter (responseKept (responseValidNames q0 resp.answer) q0.qclass) with
  | nil => simp [h]
  | cons x xs => simp [h]

/-- C2: `ResponseExtractValidAnswers` returns exactly those answer
records whose canonicalized header name is in the valid-name set and whose
class equals the question class, in the original answer-section order and
with no filtering by record type (the kept predicate `responseKept` never
reads the record type or payload); it returns the noData error if and only
if that filtered list is empty. -/
theorem c2_extract (q0 : DnsQuestion) (resp : DnsMsg) :
    ResponseExtractValidAnswers q0 resp =
      (if resp.answer.filter (responseKept (responseValidNames q0 resp.answer) q0.qclass) = []
        then .error .noData
        else .ok (resp.answer.filter (responseKept (responseValidNames q0 resp.answer) q0.qclass)))
    ∧ (ResponseExtractValidAnswers q0 resp = .error .noData ↔
        resp.answer.filter (responseKept (responseValidNames q0 resp.answer) q0.qclass) = []) := by
  refine ⟨extract_eq_filter q0 resp, ?_⟩
  rw [extract_eq_filter q0 resp]
  by_cases h : resp.answer.filter (responseKept (responseValidNames q0 resp.answer) q0.qclass) = []
  · simp [h]
  · simp [h]

/-- C10: every answer record whose canonicalized header name equals the
canonicalized question name and whose class equals the question class is
included in the output of answer extraction, regardless of any CNAME
records in the response, so extraction never returns noData when such a
record exists. -/
theorem c10_questionName_included (q0 : DnsQuestion) (resp : DnsMsg) (rr : RR)
    (hmem : rr ∈ resp.answer)
    (hname : responseCanonicalName rr.name = responseCanonicalName q0.name)
    (hclass : rr.rrClass = q0.qclass) :
    ∃ l, ResponseExtractValidAnswers q0 resp = .ok l ∧ rr ∈ l := by
  have hinit : responseCanonicalName q0.name ∈ responseValidNames q0 resp.answer := by
    unfold responseValidNames
    rw [foldl_chainStep_fst]
    simp
  have hkept : responseKept (responseValidNames q0 resp.answer) q0.qclass rr = true := by
    unfold responseKept
    simp [hname, hclass, hinit]
  have hmf : rr ∈ resp.answer.filter (responseKept (responseValidNames q0 resp.answer) q0.qclass) :=
    List.mem_filter.mpr ⟨hmem, hkept⟩
  have hne : ¬ resp.answer.filter (responseKept (responseValidNames q0 resp.answer) q0.qclass) = [] := by
    intro h
    rw [h] at hmf
    simp at hmf
  refine ⟨_, ?_, hmf⟩
  rw [extract_eq_filter, if_neg hne]

/-- A concrete question (name `x.`, type A, class IN) for witnesses. -/
def q0x : DnsQuestion := ⟨[120, 46], 1, 1⟩

/-- A concrete address-v4 answer record named `x.` for witnesses. -/
def rrAx : RR := ⟨[120, 46], 1, 1, .a "127.0.0.1"⟩

/-- A concrete query message carrying `q0x` for witnesses. -/
def queryMsgX : DnsMsg := ⟨7, false, false, false, 0, [q0x], []⟩

/-- A concrete successful response to `queryMsgX` whose answer section
holds the single record `rrAx`. -/
def respMsgX : DnsMsg := ⟨7, true, true, true, 0, [q0x], [rrAx]⟩

/-- C10 witness: on the concrete question `q0x` and response `respMsgX`,
the record `rrAx` matches the canonicalized question name and class and is
included in the extraction output. -/
theorem c10_witness :
    rrAx ∈ respMsgX.answer
    ∧ responseCanonicalName rrAx.name = responseCanonicalName q0x.name
    ∧ rrAx.rrClass = q0x.qclass
    ∧ ∃ l, ResponseExtractValidAnswers q0x respMsgX = .ok l ∧ rrAx ∈ l :=
  ⟨by decide, by decide, by decide,
    c10_questionName_included q0x respMsgX rrAx (by decide) (by decide) (by decide)⟩

/-- C4: `ValidateResponseForQuery` performs its checks in the fixed
order with first failure winning - response flag (invalidResponse), ID
match (invalidResponse), exactly one query question (invalidQuery),
exactly one response question (invalidResponse), then name, class and type
of the question (invalidResponse) - and on success returns the single
question taken from the query, as stated by `validateSpec`, which is
written from the words of the spec. -/
theorem c4_validate (query resp : DnsMsg) :
    ValidateResponseForQuery query resp = validateSpec query resp := by
  unfold ValidateResponseForQuery validateSpec
  rcases hq : query.question with _ | ⟨q0, _ | ⟨q1, qs⟩⟩ <;>
    rcases hr : resp.question with _ | ⟨r0, _ | ⟨r1, rs⟩⟩ <;>
      simp [hq, hr] <;> split_ifs <;> simp_all

/-- C5: `ResponseErrorFromRCODE` returns noName exactly on the
name-error result code; noData exactly on a successful, non-authoritative,
non-recursion-available response with an empty answer section;
serverTemporarilyMisbehaving exactly on server-failure;
serverMisbehaving exactly on every other non-success code; and none
(success) otherwise. -/
theorem c5_rcode (resp : DnsMsg) :
    (ResponseErrorFromRCODE resp = some .noName ↔ resp.rcode = rcodeNameError)
    ∧ (ResponseErrorFromRCODE resp = some .noData ↔
        resp.rcode = rcodeSuccess ∧ resp.authoritative = false ∧
        resp.recursionAvailable = false ∧ resp.answer = [])
    ∧ (ResponseErrorFromRCODE resp = some .serverTemporarilyMisbehaving ↔
        resp.rcode = rcodeServerFailure)
    ∧ (ResponseErrorFromRCODE resp = some .serverMisbehaving ↔
        resp.rcode ≠ rcodeSuccess ∧ resp.rcode ≠ rcodeServerFailure ∧
        resp.rcode ≠ rcodeNameError)
    ∧ (ResponseErrorFromRCODE resp = none ↔
        resp.rcode = rcodeSuccess ∧ (resp.authoritative = true ∨
          resp.recursionAvailable = true ∨ resp.answer ≠ [])) := by
  unfold ResponseErrorFromRCODE rcodeSuccess rcodeServerFailure rcodeNameError
  refine ⟨?_, ?_, ?_, ?_, ?_⟩
  · split_ifs <;> simp_all [List.length_eq_zero]
  · split_ifs <;> simp_all [List.length_eq_zero]
  · split_ifs <;> simp_all [List.length_eq_zero]
  · split_ifs <;> simp_all [List.length_eq_zero]
  · split_ifs with h1 h2 h3 h4
    · constructor
      · intro hcontra
        simp at hcontra
      · rintro ⟨h0, -⟩
        exfalso
        omega
    · constructor
      · intro hcontra
        simp at hcontra
      · rintro ⟨h0, hd⟩
        exfalso
        obtain ⟨-, ha, hra, hl⟩ := h2
        rcases hd with h | h | h <;> simp_all [List.length_eq_zero]
    · constructor
      · intro hcontra
        simp at hcontra
      · rintro ⟨h0, -⟩
        exact absurd h0 h3
    · constructor
      · intro hcontra
        simp at hcontra
      · rintro ⟨h0, -⟩
        exact absurd h0 h3
    · have h0 : resp.rcode = 0 := by
        by_contra hne
        exact h3 hne
      constructor
      · intro _
        refine ⟨h0, ?_⟩
        by_cases ha : resp.authoritative = true
        · exact Or.inl ha
        by_cases hra : resp.recursionAvailable = true
        · exact Or.inr (Or.inl hra)
        have hl : ¬ resp.answer.length = 0 := fun hl =>
          h2 ⟨h0, by simpa using ha, by simpa using hra, hl⟩
        refine Or.inr (Or.inr ?_)
        simpa [← List.length_eq_zero] using hl
      · intro _
        rfl

/-- A successful extraction never returns an empty record list. -/
theorem extract_ok_ne_nil (q0 : DnsQuestion) (resp : DnsMsg) (l : List RR)
    (h : ResponseExtractValidAnswers q0 resp = .ok l) : l ≠ [] := by
  rw [extract_eq_filter] at h
  by_cases hf : resp.answer.filter (responseKept (responseValidNames q0 resp.answer) q0.qclass) = []
  · rw [if_pos hf] at h
    exact absurd h (by simp)
  · rw [if_neg hf] at h
    injection h with h
    exact fun hl => hf (h.trans hl)

/-- C6: `ParseResponse` runs structural validation, result-code
interpretation and answer extraction strictly in that sequence, returns
the first error unchanged with no partial result, constructs the Response
value only when all three stages succeed, and every successfully
constructed Response has a non-empty valid-record list. -/
theorem c6_pipeline (query resp : DnsMsg) :
    (∀ e, ValidateResponseForQuery query resp = .error e →
      ParseResponse query resp = .error e)
    ∧ (∀ q0 e, ValidateResponseForQuery query resp = .ok q0 →
      ResponseErrorFromRCODE resp = some e → ParseResponse query resp = .error e)
    ∧ (∀ q0 e, ValidateResponseForQuery query resp = .ok q0 →
      ResponseErrorFromRCODE resp = none →
      ResponseExtractValidAnswers q0 resp = .error e →
      ParseResponse query resp = .error e)
    ∧ (∀ q0 rrs, ValidateResponseForQuery query resp = .ok q0 →
      ResponseErrorFromRCODE resp = none →
      ResponseExtractValidAnswers q0 resp = .ok rrs →
      ParseResponse query resp = .ok { query := query, response := resp, validRRs := rrs })
    ∧ (∀ r, ParseResponse query resp = .ok r → r.validRRs ≠ []) := by
  refine ⟨?_, ?_, ?_, ?_, ?_⟩
  · intro e h
    simp [ParseResponse, h]
  · intro q0 e h1 h2
    simp [ParseResponse, h1, h2]
  · intro q0 e h1 h2 h3
    simp [ParseResponse, h1, h2, h3]
  · intro q0 rrs h1 h2 h3
    simp [ParseResponse, h1, h2, h3]
  · intro r h
    unfold ParseResponse at h
    cases hv : ValidateResponseForQuery query resp with
    | error e => simp [hv] at h
    | ok q0 =>
      simp only [hv] at h
      cases hrc : ResponseErrorFromRCODE resp with
      | some e => simp [hrc] at h
      | none =>
        simp only [hrc] at h
        cases hx : ResponseExtractValidAnswers q0 resp with
        | error e => simp [hx] at h
        | ok rrs =>
          simp only [hx, Except.ok.injEq] at h
          rw [← h]
          exact extract_ok_ne_nil q0 resp rrs hx

/-- For equal-length names, the pointwise folded comparison of the
zipped bytes agrees with equality of the lowercased names. -/
theorem zip_all_lower_iff (x : DnsName) :
    ∀ y : DnsName, x.length = y.length →
    (((List.zip x y).all fun p => lowerASCII p.1 == lowerASCII p.2) = true ↔
      x.map lowerASCII = y.map lowerASCII) := by
  induction x with
  | nil =>
    intro y h
    cases y with
    | nil => simp
    | cons b bs => simp at h
  | cons a as ih =>
    intro y h
    cases y with
    | nil => simp at h
    | cons b bs =>
      simp only [List.zip_cons_cons, List.all_cons, List.map_cons, Bool.and_eq_true,
        beq_iff_eq, List.cons.injEq]
      have hlen : as.length = bs.length := by
        simpa using h
      rw [ih bs hlen]

/-- C7: `responseEqualASCIIName` returns false when the lengths differ;
for equal lengths it holds exactly when the names agree after mapping the
bytes 65..90 to lowercase on each side, all other bytes (including
non-ASCII bytes) comparing literally; two empty names compare equal and an
empty name is unequal to any non-empty name. -/
theorem c7_comparator (x y : DnsName) :
    (x.length ≠ y.length → responseEqualASCIIName x y = false)
    ∧ (x.length = y.length →
        (responseEqualASCIIName x y = true ↔ x.map lowerASCII = y.map lowerASCII))
    ∧ responseEqualASCIIName [] [] = true
    ∧ (∀ b bs, responseEqualASCIIName (b :: bs) [] = false ∧
        responseEqualASCIIName [] (b :: bs) = false) := by
  refine ⟨?_, ?_, by decide, ?_⟩
  · intro h
    simp [responseEqualASCIIName, h]
  · intro h
    rw [responseEqualASCIIName, if_neg (by omega)]
    exact zip_all_lower_iff x y h
  · intro b bs
    constructor <;> simp [responseEqualASCIIName]

/-- The uint16 wraparound in the padding remainder computes the same
value as the direct modulus by 128. -/
theorem pad_remainder_mod (L : Nat) :
    queryPaddingRemainder L = (128 - (L + 4) % 128) % 128 := by
  unfold queryPaddingRemainder
  omega

/-- C3: for every unpadded encoded length L, the padding option holds
exactly ((128 - (L + 4)) mod 128) zero bytes (stated over the integers, as
the claim writes it), the final encoded length is the smallest multiple of
128 that is at least L + 4, and the computation is total - it is defined
for every L with no error path. -/
theorem c3_padding (L : Nat) :
    queryPaddingOption L = List.replicate (((128 - ((L : Int) + 4)) % 128).toNat) 0
    ∧ ((queryPaddingRemainder L : Int) = (128 - ((L : Int) + 4)) % 128)
    ∧ queryPaddedLen L % 128 = 0
    ∧ L + 4 ≤ queryPaddedLen L
    ∧ (∀ m : Nat, m % 128 = 0 → L + 4 ≤ m → queryPaddedLen L ≤ m) := by
  have hrem := pad_remainder_mod L
  have hint : (queryPaddingRemainder L : Int) = (128 - ((L : Int) + 4)) % 128 := by
    rw [hrem]
    omega
  refine ⟨?_, hint, ?_, ?_, ?_⟩
  · have htn : (((128 - ((L : Int) + 4)) % 128).toNat) = queryPaddingRemainder L := by
      rw [← hint]
      simp
    rw [htn]
    rfl
  · unfold queryPaddedLen
    rw [hrem]
    omega
  · unfold queryPaddedLen
    omega
  · intro m h1 h2
    unfold queryPaddedLen
    rw [hrem]
    omega

/-- The loop of `Response.RecordsA` collects `aTexts`. -/
theorem foldl_recordsAStep (l : List RR) :
    ∀ acc : List String, l.foldl recordsAStep acc = acc ++ aTexts l := by
  induction l with
  | nil => intro acc; simp [aTexts]
  | cons rr rest ih =>
    intro acc
    rw [List.foldl_cons]
    cases hr : rr.rdata <;> simp [recordsAStep, aTexts, hr, ih]

/-- The loop of `Response.RecordsAAAA` collects `aaaaTexts`. -/
theorem foldl_recordsAAAAStep (l : List RR) :
    ∀ acc : List String, l.foldl recordsAAAAStep acc = acc ++ aaaaTexts l := by
  induction l with
  | nil => intro acc; simp [aaaaTexts]
  | cons rr rest ih =>
    intro acc
    rw [List.foldl_cons]
    cases hr : rr.rdata <;> simp [recordsAAAAStep, aaaaTexts, hr, ih]

/-- The scan of `Response.RecordsCNAME` collects `cnameTargets`. -/
theorem foldl_recordsCNAMEStep (l : List RR) :
    ∀ acc : List DnsName, l.foldl recordsCNAMEStep acc = acc ++ cnameTargets l := by
  induction l with
  | nil => intro acc; simp [cnameTargets]
  | cons rr rest ih =>
    intro acc
    rw [List.foldl_cons]
    cases hr : rr.rdata <;> simp [recordsCNAMEStep, cnameTargets, hr, ih]

/-- C9: `Response.RecordsA` returns exactly the textual addresses of
the address-v4 records of the valid-record list in their original order,
`Response.RecordsAAAA` does the same for the address-v6 records, each
returns the noData error (never an empty list) when its typed subset is
empty, and no record is both an address-v4 and an address-v6 record, so
the two projections are disjoint. -/
theorem c9_addresses (r : Response) :
    (Response.RecordsA r =
      if aTexts r.validRRs = [] then .error .noData else .ok (aTexts r.validRRs))
    ∧ (Response.RecordsAAAA r =
      if aaaaTexts r.validRRs = [] then .error .noData else .ok (aaaaTexts r.validRRs))
    ∧ (∀ rr : RR, (rrIsA rr && rrIsAAAA rr) = false) := by
  refine ⟨?_, ?_, ?_⟩
  · unfold Response.RecordsA
    simp only [foldl_recordsAStep, List.nil_append]
    cases h : aTexts r.validRRs with
    | nil => simp [h]
    | cons x xs => simp [h]
  · unfold Response.RecordsAAAA
    simp only [foldl_recordsAAAAStep, List.nil_append]
    cases h : aaaaTexts r.validRRs with
    | nil => simp [h]
    | cons x xs => simp [h]
  · intro rr
    cases hr : rr.rdata <;> simp [rrIsA, rrIsAAAA, hr]

/-- C8: `Response.RecordsCNAME` returns the ordered list of every
canonical-name target among the valid records, and fails with noData
exactly when that list contains no canonical-name record. -/
theorem c8_cnames (r : Response) :
    (Response.RecordsCNAME r =
      if cnameTargets r.validRRs = [] then .error .noData else .ok (cnameTargets r.validRRs))
    ∧ (Response.RecordsCNAME r = .error .noData ↔ cnameTargets r.validRRs = []) := by
  have heq : Response.RecordsCNAME r =
      if cnameTargets r.validRRs = [] then .error .noData else .ok (cnameTargets r.validRRs) := by
    unfold Response.RecordsCNAME
    simp only [foldl_recordsCNAMEStep, List.nil_append]
    cases h : cnameTargets r.validRRs with
    | nil => simp [h]
    | cons x xs => simp [h]
  refine ⟨heq, ?_⟩
  rw [heq]
  by_cases h : cnameTargets r.validRRs = []
  · simp [h]
  · simp [h]

/-- C3 witness: for unpadded length 12, the padding option carries 112
zero bytes and the padded length is 128, the smallest multiple of 128 that
is at least 16. -/
theorem c3_padding_witness :
    queryPaddingOption 12 = List.replicate 112 0
    ∧ queryPaddedLen 12 = 128
    ∧ (128 : Nat) % 128 = 0
    ∧ 12 + 4 ≤ 128
    ∧ queryPaddedLen 12 ≤ 128 :=
  ⟨rfl, rfl, rfl, by decide, (c3_padding 12).2.2.2.2 128 (by decide) (by decide)⟩

/-- C6 witness: the concrete query and response parse successfully into
a Response whose valid-record list is non-empty. -/
theorem c6_pipeline_witness :
    ParseResponse queryMsgX respMsgX =
      .ok { query := queryMsgX, response := respMsgX, validRRs := [rrAx] }
    ∧ ({ query := queryMsgX, response := respMsgX, validRRs := [rrAx] } : Response).validRRs ≠ [] :=
  ⟨(c6_pipeline queryMsgX respMsgX).2.2.2.1 q0x [rrAx] rfl rfl rfl,
   (c6_pipeline queryMsgX respMsgX).2.2.2.2
     { query := queryMsgX, response := respMsgX, validRRs := [rrAx] } rfl⟩

/-- C7 witness: concrete comparisons - names of different lengths are
unequal, and the case-insensitive comparison of two names differing only
in letter case reduces to equality of their lowercased forms. -/
theorem c7_comparator_witness :
    responseEqualASCIIName (strBytes "example.co.") (strBytes "example.co.uk.") = false
    ∧ (responseEqualASCIIName (strBytes "Example.COM.") (strBytes "exaMple.com.") = true ↔
        (strBytes "Example.COM.").map lowerASCII = (strBytes "exaMple.com.").map lowerASCII)
    ∧ responseEqualASCIIName [] [] = true :=
  ⟨(c7_comparator (strBytes "example.co.") (strBytes "example.co.uk.")).1 (by decide),
   (c7_comparator (strBytes "Example.COM.") (strBytes "exaMple.com.")).2.1 (by decide),
   (c7_comparator [] []).2.2.1⟩
